import Mathlib

/- Verification development for Conservify/simple-deps (src/dependencies.go).

   The manifest codec, conflict tracking, writeback and resolution engine of
   dependencies.go are embedded as executable Lean functions.  Strings are
   modeled at character granularity; the Go code only performs byte-level
   operations whose behavior coincides with character-level behavior on the
   ASCII data the program manipulates.  File contents are modeled as the list
   of lines produced by bufio.Scanner (which strips the line terminators and
   produces one string per line). -/

namespace SimpleDeps

/-- Models Go strings.Split with a single-character separator.  The second
argument accumulates the characters of the current field in reverse order. -/
def splitCharAux (sep : Char) : List Char → List Char → List (List Char)
  | [], cur => [cur.reverse]
  | c :: cs, cur =>
    if c = sep then cur.reverse :: splitCharAux sep cs []
    else splitCharAux sep cs (c :: cur)

/-- strings.Split(s, sep) for a one-character separator, as used at
dependencies.go:78 (strings.Split(line, " ")). -/
def splitChar (sep : Char) (s : String) : List String :=
  (splitCharAux sep s.data []).map String.mk

/-- Go split(s, sep, cutc=true) from net/url: cut the string at the first
occurrence of sep, dropping the separator; (s, "") when sep is absent. -/
def cutAfter (sep : Char) (s : String) : String × String :=
  match s.data.dropWhile (fun c => ¬ c = sep) with
  | [] => (String.mk (s.data.takeWhile (fun c => ¬ c = sep)), "")
  | _ :: rest => (String.mk (s.data.takeWhile (fun c => ¬ c = sep)), String.mk rest)

/-- Go split(s, sep, cutc=false) from net/url: cut at the first occurrence of
sep, keeping the separator on the right part. -/
def splitKeep (sep : Char) (s : String) : String × String :=
  (String.mk (s.data.takeWhile (fun c => ¬ c = sep)),
   String.mk (s.data.dropWhile (fun c => ¬ c = sep)))

/-- Index of the last occurrence of a character (strings.LastIndex for a
one-character needle), as an Option instead of -1. -/
def lastIndexOf (c : Char) (cs : List Char) : Option Nat :=
  (List.findIdx? (fun d => d = c) cs.reverse).map (fun i => cs.length - 1 - i)

/-- Leading-match test on character lists: the second list begins with the
first. -/
def leadEq : List Char → List Char → Bool
  | [], _ => true
  | _ :: _, [] => false
  | p :: ps, c :: cs => p = c && leadEq ps cs

/-- Go strings.HasPrefix. -/
def strLead (s pre : String) : Bool := leadEq pre.data s.data

/-- Go strings.HasSuffix. -/
def strTrail (s suf : String) : Bool := leadEq suf.data.reverse s.data.reverse

/-- Go strings.TrimSuffix. -/
def trimSuffix (s suf : String) : String :=
  if strTrail s suf then String.mk (s.data.take (s.data.length - suf.data.length)) else s

/-- ASCII lowering of a scheme (strings.ToLower; schemes are ASCII-only by
construction of getScheme). -/
def lowerAscii (s : String) : String :=
  String.mk (s.data.map Char.toLower)

/- ===================== model of Go net/url (stdlib) ===================== -/

/- The program calls url.ParseRequestURI (dependencies.go:88) and reads the
   resulting URL's Path (dependencies.go:92) and its presence
   (dependencies.go:91, 181, 193).  The functions below model the stdlib
   parse(rawurl, viaRequest=true) pipeline of the Go releases this program
   was written against.  RawPath bookkeeping is omitted (never read). -/

/-- Userinfo component of a URL (net/url.Userinfo). -/
structure Userinfo where
  username : String
  password : Option String
deriving DecidableEq, Repr

/-- Structured URL (net/url.URL); fields the program can observe. -/
structure URL where
  Scheme : String := ""
  Opaque : String := ""
  User : Option Userinfo := none
  Host : String := ""
  Path : String := ""
  ForceQuery : Bool := false
  RawQuery : String := ""
deriving DecidableEq, Repr

/-- stringContainsCTLByte: a byte below 0x20 or equal to 0x7f.  Non-ASCII
characters encode to bytes at or above 0x80, which are never CTL, so the
character-level check agrees with Go's byte-level check. -/
def stringContainsCTLByte (s : String) : Bool :=
  s.data.any (fun c => c.toNat < 0x20 ∨ c.toNat = 0x7f)

/-- Hexadecimal digit test (net/url ishex). -/
def ishex (c : Char) : Bool :=
  ('0' ≤ c ∧ c ≤ '9') ∨ ('a' ≤ c ∧ c ≤ 'f') ∨ ('A' ≤ c ∧ c ≤ 'F')

/-- Hexadecimal digit value (net/url unhex). -/
def unhex (c : Char) : Nat :=
  if '0' ≤ c ∧ c ≤ '9' then c.toNat - '0'.toNat
  else if 'a' ≤ c ∧ c ≤ 'f' then c.toNat - 'a'.toNat + 10
  else if 'A' ≤ c ∧ c ≤ 'F' then c.toNat - 'A'.toNat + 10
  else 0

/-- net/url getscheme.  Walks the raw URL; letters continue, digits and +-.
continue except in first position (where the whole input is a scheme-less
rest), a colon ends the scheme, anything else means no scheme.  The
accumulator holds the scheme characters scanned so far, in reverse; it is
empty exactly when the scan is at position 0. -/
def getSchemeAux (raw : List Char) : List Char → List Char → Except String (String × String)
  | [], _ => .ok ("", String.mk raw)
  | c :: cs, acc =>
    if ('a' ≤ c ∧ c ≤ 'z') ∨ ('A' ≤ c ∧ c ≤ 'Z') then getSchemeAux raw cs (c :: acc)
    else if ('0' ≤ c ∧ c ≤ '9') ∨ c = '+' ∨ c = '-' ∨ c = '.' then
      if acc = [] then .ok ("", String.mk raw) else getSchemeAux raw cs (c :: acc)
    else if c = ':' then
      if acc = [] then .error "missing protocol scheme"
      else .ok (String.mk acc.reverse, String.mk cs)
    else .ok ("", String.mk raw)

/-- net/url getscheme on a string. -/
def getScheme (s : String) : Except String (String × String) :=
  getSchemeAux s.data s.data []

/-- net/url unescape in a mode that performs only percent-decoding (encodePath
and encodeUserPassword validate nothing beyond well-formed escapes).  A decoded
byte is modeled as the character with that code point. -/
def unescapePercentAux : List Char → Except String (List Char)
  | [] => .ok []
  | '%' :: c1 :: c2 :: rest =>
    if ishex c1 ∧ ishex c2 then
      match unescapePercentAux rest with
      | .error e => .error e
      | .ok out => .ok (Char.ofNat (unhex c1 * 16 + unhex c2) :: out)
    else .error "invalid URL escape"
  | '%' :: _ => .error "invalid URL escape"
  | c :: rest =>
    match unescapePercentAux rest with
    | .error e => .error e
    | .ok out => .ok (c :: out)

/-- Percent-decoding on strings (net/url unescape, path/userinfo modes). -/
def unescapePercentS (s : String) : Except String String :=
  match unescapePercentAux s.data with
  | .error e => .error e
  | .ok out => .ok (String.mk out)

/-- shouldEscape(c, encodeHost): true when the character is not allowed to
appear un-escaped in a host.  Alphanumerics, the host sub-delimiters and the
unreserved marks are allowed. -/
def shouldEscapeHost (c : Char) : Bool :=
  ¬ (('a' ≤ c ∧ c ≤ 'z') ∨ ('A' ≤ c ∧ c ≤ 'Z') ∨ ('0' ≤ c ∧ c ≤ '9') ∨
     c ∈ ['!', '$', '&', '\'', '(', ')', '*', '+', ',', ';', '=', ':', '[', ']', '<', '>', '"'] ∨
     c ∈ ['-', '_', '.', '~'])

/-- net/url unescape in encodeHost mode: percent-decodes and additionally
rejects escapes of host bytes below 0x80 other than %25, and rejects raw
ASCII characters that shouldEscape in a host. -/
def unescapeHostAux : List Char → Except String (List Char)
  | [] => .ok []
  | '%' :: c1 :: c2 :: rest =>
    if ishex c1 ∧ ishex c2 then
      if unhex c1 < 8 ∧ ¬ (c1 = '2' ∧ c2 = '5') then .error "invalid URL escape in host"
      else
        match unescapeHostAux rest with
        | .error e => .error e
        | .ok out => .ok (Char.ofNat (unhex c1 * 16 + unhex c2) :: out)
    else .error "invalid URL escape"
  | '%' :: _ => .error "invalid URL escape"
  | c :: rest =>
    if c.toNat < 0x80 ∧ shouldEscapeHost c then .error "invalid character in host name"
    else
      match unescapeHostAux rest with
      | .error e => .error e
      | .ok out => .ok (c :: out)

/-- validOptionalPort: empty, or a colon followed by decimal digits. -/
def validOptionalPort (port : List Char) : Bool :=
  match port with
  | [] => true
  | ':' :: rest => rest.all (fun c => '0' ≤ c ∧ c ≤ '9')
  | _ => false

/-- net/url parseHost.  The IPv6 zone-identifier special casing inside
brackets is elided (the bracket branch still checks for the closing bracket
and a valid port); no manifest handled in this development contains a
bracketed host. -/
def parseHost (host : String) : Except String String :=
  let cs := host.data
  if cs.head? = some '[' then
    match lastIndexOf ']' cs with
    | none => .error "missing ']' in host"
    | some i =>
      if !validOptionalPort (cs.drop (i + 1)) then .error "invalid port after host"
      else
        match unescapeHostAux cs with
        | .error e => .error e
        | .ok out => .ok (String.mk out)
  else
    let portOk :=
      match lastIndexOf ':' cs with
      | none => true
      | some i => validOptionalPort (cs.drop i)
    if !portOk then .error "invalid port after host"
    else
      match unescapeHostAux cs with
      | .error e => .error e
      | .ok out => .ok (String.mk out)

/-- validUserinfo: the characters RFC 3986 allows in the userinfo component. -/
def validUserinfo (s : String) : Bool :=
  s.data.all (fun r =>
    ('A' ≤ r ∧ r ≤ 'Z') ∨ ('a' ≤ r ∧ r ≤ 'z') ∨ ('0' ≤ r ∧ r ≤ '9') ∨
    r ∈ ['-', '.', '_', ':', '~', '!', '$', '&', '\'', '(', ')', '*', '+', ',', ';', '=', '%', '@'])

/-- net/url parseAuthority: split userinfo at the last @, validate and
percent-decode it, and parse the host. -/
def parseAuthority (authority : String) : Except String (Option Userinfo × String) :=
  let cs := authority.data
  match lastIndexOf '@' cs with
  | none =>
    match parseHost authority with
    | .error e => .error e
    | .ok h => .ok (none, h)
  | some i =>
    match parseHost (String.mk (cs.drop (i + 1))) with
    | .error e => .error e
    | .ok h =>
      let userinfo := String.mk (cs.take i)
      if !validUserinfo userinfo then .error "net/url: invalid userinfo"
      else if !userinfo.data.contains ':' then
        match unescapePercentS userinfo with
        | .error e => .error e
        | .ok u => .ok (some { username := u, password := none }, h)
      else
        let (un, pw) := cutAfter ':' userinfo
        match unescapePercentS un with
        | .error e => .error e
        | .ok u =>
          match unescapePercentS pw with
          | .error e => .error e
          | .ok p => .ok (some { username := u, password := some p }, h)

/-- net/url ParseRequestURI = parse(rawurl, viaRequest=true): the URL is
interpreted as an absolute URI or an absolute (rooted) path; a scheme-less,
non-rooted input is an error. -/
def parseRequestURI (rawurl : String) : Except String URL :=
  if stringContainsCTLByte rawurl then .error "net/url: invalid control character in URL"
  else if rawurl = "" then .error "empty url"
  else if rawurl = "*" then .ok { Path := "*" }
  else
    match getScheme rawurl with
    | .error e => .error e
    | .ok (scheme0, rest0) =>
      let scheme := lowerAscii scheme0
      let (rest1, forceQuery, rawQuery) :=
        if strTrail rest0 "?" ∧ !rest0.data.dropLast.contains '?' then
          (String.mk rest0.data.dropLast, true, "")
        else
          let (b, a) := cutAfter '?' rest0
          (b, false, a)
      if !strLead rest1 "/" then
        if ¬ scheme = "" then
          .ok { Scheme := scheme, Opaque := rest1, ForceQuery := forceQuery, RawQuery := rawQuery }
        else .error "invalid URI for request"
      else
        if ¬ scheme = "" ∧ strLead rest1 "//" then
          let (authority, rest2) := splitKeep '/' (String.mk (rest1.data.drop 2))
          match parseAuthority authority with
          | .error e => .error e
          | .ok (user, host) =>
            match unescapePercentS rest2 with
            | .error e => .error e
            | .ok p =>
              .ok { Scheme := scheme, User := user, Host := host, Path := p,
                    ForceQuery := forceQuery, RawQuery := rawQuery }
        else
          match unescapePercentS rest1 with
          | .error e => .error e
          | .ok p =>
            .ok { Scheme := scheme, Path := p, ForceQuery := forceQuery, RawQuery := rawQuery }

/- ===================== model of Go package path (stdlib) ===================== -/

/-- The backtracking scan of path.Clean's ".." case: starting from the write
index w, walk left while above the dotdot barrier and not on a slash; the
result is the new length of the output buffer. -/
def cleanBackScan (out : List Char) (dotdot : Nat) : Nat → Nat
  | 0 => 0
  | w + 1 =>
    if w + 1 > dotdot ∧ ¬ out.getD (w + 1) ' ' = '/' then cleanBackScan out dotdot w
    else w + 1

/-- Main loop of path.Clean.  out is the output buffer, dotdot the index
below which ".." may not unwind.  Mirrors the four switch cases of the Go
loop: slash, lone dot, dot-dot, and a literal segment. -/
def cleanLoop (rooted : Bool) (input : List Char) (out : List Char) (dotdot : Nat) : List Char :=
  match input with
  | [] => out
  | c :: rest =>
    if c = '/' then cleanLoop rooted rest out dotdot
    else if c = '.' ∧ (rest = [] ∨ rest.head? = some '/') then
      cleanLoop rooted rest out dotdot
    else if c = '.' ∧ rest.head? = some '.' ∧ (rest.tail = [] ∨ rest.tail.head? = some '/') then
      if out.length > dotdot then
        cleanLoop rooted rest.tail (out.take (cleanBackScan out dotdot (out.length - 1))) dotdot
      else if ¬ rooted then
        cleanLoop rooted rest.tail
          (((if out.length > 0 then out ++ ['/'] else out) ++ ['.', '.']))
          ((if out.length > 0 then out ++ ['/'] else out) ++ ['.', '.']).length
      else cleanLoop rooted rest.tail out dotdot
    else
      cleanLoop rooted (rest.dropWhile (fun d => ¬ d = '/'))
        ((if (rooted ∧ ¬ out.length = 1) ∨ (¬ rooted ∧ ¬ out.length = 0) then out ++ ['/'] else out)
          ++ (c :: rest.takeWhile (fun d => ¬ d = '/')))
        dotdot
termination_by input.length
decreasing_by
  all_goals simp only [List.length_cons, Nat.lt_succ_iff, List.tail_cons, List.length_tail]
  all_goals first
    | omega
    | exact le_trans (List.dropWhile_sublist _).length_le (by simp)

/-- path.Clean. -/
def pathClean (p : String) : String :=
  if p = "" then "."
  else
    let cs := p.data
    let rooted := cs.head? = some '/'
    let out := if rooted then cleanLoop true cs ['/'] 1 else cleanLoop false cs [] 0
    if out = [] then "." else String.mk out

/-- path.Join on two elements, as called at dependencies.go:151. -/
def pathJoin2 (a b : String) : String :=
  if ¬ a = "" then pathClean (a ++ "/" ++ b)
  else if ¬ b = "" then pathClean b
  else ""

/-- path.Base: last element of the path after stripping trailing slashes;
"." for the empty path, "/" for an all-slash path. -/
def pathBase (p : String) : String :=
  if p = "" then "."
  else
    let r := p.data.reverse.dropWhile (fun c => c = '/')
    let tail := r.takeWhile (fun c => ¬ c = '/')
    if tail = [] then "/" else String.mk tail.reverse

/-- Scan for path.Ext, walking the reversed path; acc holds the characters
already passed, in forward order. -/
def pathExtAux : List Char → List Char → String
  | [], _ => ""
  | c :: rest, acc =>
    if c = '/' then ""
    else if c = '.' then String.mk ('.' :: acc)
    else pathExtAux rest (c :: acc)

/-- path.Ext: the suffix from the final dot of the last path element. -/
def pathExt (p : String) : String := pathExtAux p.data.reverse []

/- ===================== dependencies.go: data model and codec ===================== -/

/-- Library (dependencies.go:16-24). -/
structure Library where
  Configuration : String
  UrlOrPath : String
  Version : String
  RelativePath : String
  Name : String
  Modified : Bool
  URL : Option URL
deriving DecidableEq, Repr

/-- The Dependencies receiver (dependencies.go:26-28) is its Libraries slice. -/
abbrev Dependencies := List Library

/-- Name derivation inside Read (dependencies.go:90-99): base name of the
URL path with its extension trimmed when the source parses as a request URI,
otherwise base name of the raw path; a non-root relative path is appended
with its slashes replaced by underscores. -/
def deriveName (urlOrPath relativePath : String) (u : Option URL) : String :=
  let name :=
    match u with
    | some url => trimSuffix (pathBase url.Path) (pathExt (pathBase url.Path))
    | none => pathBase urlOrPath
  if ¬ relativePath = "/" then
    name ++ String.mk (relativePath.data.map (fun c => if c = '/' then '_' else c))
  else name

/-- One iteration of the Read scanner loop (dependencies.go:77-108): split the
line on single spaces, default version to "" and relativePath to "/", attempt
ParseRequestURI discarding its error, derive the name, build the Library.
splitChar never returns an empty list, so the getD 0 default is never used
(fields[0] in Go). -/
def parseLine (fn line : String) : Library :=
  let fields := splitChar ' ' line
  let urlOrPath := fields.getD 0 ""
  let version := fields.getD 1 ""
  let relativePath := fields.getD 2 "/"
  let u := (parseRequestURI urlOrPath).toOption
  { Configuration := fn, UrlOrPath := urlOrPath, Version := version,
    RelativePath := relativePath, Name := deriveName urlOrPath relativePath u,
    Modified := false, URL := u }

/-- Scanner loop of Dependencies.Read (dependencies.go:73-114).  versionsByPath
is the Go map with its zero-value "" default for absent keys; log.Fatalf is
modeled as an error result aborting the whole run (the entry append preceding
the fatal check is unobservable because the abort discards everything). -/
def readLines (fn : String) : List String → Dependencies → (String → String) → Except String Dependencies
  | [], acc, _ => .ok acc
  | line :: rest, acc, versionsByPath =>
    let lib := parseLine fn line
    if ¬ versionsByPath lib.UrlOrPath = "" ∧ ¬ versionsByPath lib.UrlOrPath = lib.Version then
      .error ("Version mismatch: " ++ lib.UrlOrPath ++ "! Versions for repositories are required to be the same.")
    else
      readLines fn rest (acc ++ [lib]) (fun s => if s = lib.UrlOrPath then lib.Version else versionsByPath s)

/-- Dependencies.Read (dependencies.go:65-117) on the lines of one manifest
file (bufio.Scanner yields the file's lines): appends to the receiver's
Libraries; versionsByPath starts fresh on every call. -/
def Dependencies.Read (d : Dependencies) (fn : String) (fileLines : List String) : Except String Dependencies :=
  readLines fn fileLines d (fun _ => "")

/-- One line of Dependencies.Write (dependencies.go:50-60): empty versions are
serialized as "*", the relative path is emitted only when it is not "/"; the
newline WriteString appends is the separator the scanner strips back off. -/
def writeLine (lib : Library) : String :=
  let version := if lib.Version = "" then "*" else lib.Version
  if ¬ lib.RelativePath = "/" then lib.UrlOrPath ++ " " ++ version ++ " " ++ lib.RelativePath
  else lib.UrlOrPath ++ " " ++ version

/-- Dependencies.Write (dependencies.go:42-63) as the list of emitted lines
(the file-handle plumbing is the IO boundary). -/
def writeLines (d : Dependencies) : List String := d.map writeLine

/-- Key set of the byConfiguration map built at dependencies.go:120-127, in
first-appearance order (Go iterates map keys in unspecified order; the set of
rewritten files is order-independent). -/
def configKeys (d : Dependencies) : List String :=
  d.foldl (fun ks l => if l.Configuration ∈ ks then ks else ks ++ [l.Configuration]) []

/-- SaveModified (dependencies.go:119-148): the manifest files rewritten
together with the serialized content each one receives.  A file is rewritten
exactly when force is set or some entry of its group has Modified set; the
group is the entries with that Configuration in slice order. -/
def saveModified (d : Dependencies) (force : Bool) : List (String × List String) :=
  (configKeys d).filterMap (fun c =>
    let group := d.filter (fun l => l.Configuration = c)
    if force || group.any (fun l => l.Modified) then some (c, writeLines group) else none)

/- ===================== dependencies.go: resolution engine ===================== -/

/-- Stat result: the os.FileInfo observations this program makes. -/
structure StatInfo where
  IsRegular : Bool
  IsDir : Bool
deriving DecidableEq, Repr

/-- Ambient filesystem operations used by Refresh; stat is none when os.Stat
errors, abs is filepath.Abs (depends on the working directory), mkdirAll is
os.MkdirAll returning an error message on failure. -/
structure FS where
  stat : String → Option StatInfo
  abs : String → Except String String
  mkdirAll : String → Option String

/-- Fetch collaborator: the Repositories methods Refresh consumes. -/
structure Repos where
  CloneDependency : Library → String → Bool → Except String String
  GetRepositoryHash : String → Except String String
  GetWorkingCopyPathAndName : Library → String → String × String × Option String

/-- checkForLocalOverride (dependencies.go:150-160): the sibling directory
../Name taken as override when it exists and is not a regular file; the empty
string means no override. -/
def checkForLocalOverride (fs : FS) (lib : Library) : Except String String :=
  let expected := pathJoin2 "../" lib.Name
  match fs.stat expected with
  | some s => if ¬ s.IsRegular then fs.abs expected else .ok ""
  | none => .ok ""

/-- The errors Refresh can return, tagged by their return site in
dependencies.go (in Go they are all untyped error values). -/
inductive RefreshError where
  | overrideError (msg : String)
  | mkdirError (msg : String)
  | cloneError (msg : String)
  | dependencyNotFound (lib : Library)
  | absError (msg : String)
deriving DecidableEq, Repr

/-- DependencyInfo handed to the template (dependencies.go:237-241). -/
structure DependencyInfo where
  Name : String
  Path : String
  RelativePath : String
deriving DecidableEq, Repr

/-- Body of the Refresh loop for one library (dependencies.go:171-228).
When lib.URL is nil, the os.Stat / GetRepositoryHash calls at lines 200-206
feed only the "Using directory ..." log output; dependencyPath is never
assigned in that branch, which this model preserves. -/
def refreshLib (fs : FS) (repos : Repos) (directory : String) (useHead allowLocal : Bool)
    (lib : Library) : Except RefreshError DependencyInfo :=
  let overridden : Except RefreshError String :=
    if allowLocal then
      match checkForLocalOverride fs lib with
      | .error e => .error (.overrideError e)
      | .ok overridePath =>
        if ¬ overridePath = "" ∧ lib.URL.isSome then
          match fs.mkdirAll (repos.GetWorkingCopyPathAndName lib directory).1 with
          | some e => .error (.mkdirError e)
          | none => .ok overridePath
        else .ok overridePath
    else .ok ""
  match overridden with
  | .error e => .error e
  | .ok dp0 =>
    let afterFetch : Except RefreshError String :=
      if dp0 = "" then
        match lib.URL with
        | some _ =>
          match repos.CloneDependency lib directory useHead with
          | .error e => .error (.cloneError e)
          | .ok clonePath => .ok clonePath
        | none => .ok ""
      else .ok dp0
    match afterFetch with
    | .error e => .error e
    | .ok dependencyPath =>
      if dependencyPath = "" then .error (.dependencyNotFound lib)
      else
        match fs.abs dependencyPath with
        | .error e => .error (.absError e)
        | .ok a => .ok { Name := lib.Name, Path := a, RelativePath := lib.RelativePath }

/-- Dependencies.Refresh (dependencies.go:167-235) up to the final external
template render: the resolved dependency list collected in manifest order,
aborting at the first error.  The project directory (filepath.Dir of the last
entry's Configuration) and TemplateData.Write belong to the excluded
code-generation collaborator. -/
def Dependencies.Refresh (d : Dependencies) (fs : FS) (directory : String) (repos : Repos)
    (useHead allowLocal : Bool) : Except RefreshError (List DependencyInfo) :=
  d.mapM (refreshLib fs repos directory useHead allowLocal)

/- ===================== specification-side definitions ===================== -/

/-- Version pins of the entries declaring one source, in entry order. -/
def versionsOf (s : String) (d : Dependencies) : List String :=
  (d.filter (fun l => l.UrlOrPath = s)).map (fun l => l.Version)

/-- Chain condition relative to the most recently stored version prev: each
next version must find prev empty or equal to it. -/
def chainFrom (prev : String) : List String → Prop
  | [] => True
  | v :: vs => (prev = "" ∨ prev = v) ∧ chainFrom v vs

/-- The normalization Parse→Serialize→Parse applies to an entry: the new
originating file, and an empty version pin replaced by "*". -/
def normalizeEntry (fn2 : String) (lib : Library) : Library :=
  { lib with Configuration := fn2, Version := if lib.Version = "" then "*" else lib.Version }

/-- Filesystem scenario for the resolution claims: /local/b, local/b and
local/c exist and are directories; nothing else exists (in particular no
../Name override directories). -/
def fsLocalDirs : FS :=
  { stat := fun p =>
      if p = "/local/b" ∨ p = "local/b" ∨ p = "local/c" then
        some { IsRegular := false, IsDir := true }
      else none,
    abs := fun p => .ok ("/cwd/" ++ p),
    mkdirAll := fun _ => none }

/-- Fetch collaborator whose Clone always fails. -/
def reposCloneFails : Repos :=
  { CloneDependency := fun _ _ _ => .error "clone failed",
    GetRepositoryHash := fun _ => .error "no hash",
    GetWorkingCopyPathAndName := fun _ _ => ("", "", none) }

/-- First-parse result of the one-line manifest used to instantiate the
round-trip theorem at a concrete input. -/
def c6L0 : Dependencies :=
  (Dependencies.Read [] "f" ["https://x/a.git 1.0"]).toOption.getD []

/- ===================== helper lemmas ===================== -/

theorem versionsOf_cons (s : String) (lib : Library) (d : Dependencies) :
    versionsOf s (lib :: d) =
      if lib.UrlOrPath = s then lib.Version :: versionsOf s d else versionsOf s d := by
  by_cases h : lib.UrlOrPath = s <;> simp [versionsOf, List.filter_cons, h]

theorem readLines_ok_iff (fn : String) (lines : List String) (acc : Dependencies)
    (vbp : String → String) :
    (readLines fn lines acc vbp).toOption.isSome = true ↔
      ∀ s, chainFrom (vbp s) (versionsOf s (lines.map (parseLine fn))) := by
  induction lines generalizing acc vbp with
  | nil => simp [readLines, versionsOf, chainFrom, Except.toOption]
  | cons line rest ih =>
    simp only [readLines, List.map_cons]
    by_cases hc : ¬ vbp (parseLine fn line).UrlOrPath = "" ∧
        ¬ vbp (parseLine fn line).UrlOrPath = (parseLine fn line).Version
    · rw [if_pos hc]
      constructor
      · intro h; simp [Except.toOption] at h
      · intro h
        have h1 := h (parseLine fn line).UrlOrPath
        rw [versionsOf_cons, if_pos rfl] at h1
        simp only [chainFrom] at h1
        exact absurd h1.1 (by tauto)
    · rw [if_neg hc, ih]
      have hor : vbp (parseLine fn line).UrlOrPath = ""
          ∨ vbp (parseLine fn line).UrlOrPath = (parseLine fn line).Version := by tauto
      constructor
      · intro h s
        rw [versionsOf_cons]
        by_cases hs : (parseLine fn line).UrlOrPath = s
        · subst hs
          rw [if_pos rfl]
          simp only [chainFrom]
          have h2 := h (parseLine fn line).UrlOrPath
          rw [if_pos rfl] at h2
          exact ⟨hor, h2⟩
        · rw [if_neg hs]
          have h2 := h s
          rw [if_neg (fun he : s = (parseLine fn line).UrlOrPath => hs he.symm)] at h2
          exact h2
      · intro h s
        by_cases hs : (parseLine fn line).UrlOrPath = s
        · subst hs
          rw [if_pos rfl]
          have h2 := h (parseLine fn line).UrlOrPath
          rw [versionsOf_cons, if_pos rfl] at h2
          simp only [chainFrom] at h2
          exact h2.2
        · rw [if_neg (fun he : s = (parseLine fn line).UrlOrPath => hs he.symm)]
          have h2 := h s
          rw [versionsOf_cons, if_neg hs] at h2
          exact h2

theorem chainFrom_iff_chain (v : String) (vs : List String) :
    chainFrom v vs ↔ List.Chain (fun a b => a = "" ∨ a = b) v vs := by
  induction vs generalizing v with
  | nil => simp [chainFrom]
  | cons w ws ih => simp [chainFrom, List.chain_cons, ih]

theorem readLines_isSome_acc_irrelevant (fn : String) (lines : List String)
    (acc acc' : Dependencies) (vbp : String → String) :
    (readLines fn lines acc vbp).toOption.isSome = (readLines fn lines acc' vbp).toOption.isSome := by
  induction lines generalizing acc acc' vbp with
  | nil => rfl
  | cons line rest ih =>
    simp only [readLines]
    by_cases hc : ¬ vbp (parseLine fn line).UrlOrPath = "" ∧
        ¬ vbp (parseLine fn line).UrlOrPath = (parseLine fn line).Version
    · rw [if_pos hc, if_pos hc]
    · rw [if_neg hc, if_neg hc]
      exact ih _ _ _

theorem splitCharAux_pieces_no_sep (sep : Char) (cs : List Char) :
    ∀ cur, sep ∉ cur → ∀ piece ∈ splitCharAux sep cs cur, sep ∉ piece := by
  induction cs with
  | nil =>
    intro cur hcur piece hp
    simp only [splitCharAux, List.mem_singleton] at hp
    subst hp
    simpa using hcur
  | cons c cs ih =>
    intro cur hcur piece hp
    by_cases h : c = sep
    · rw [splitCharAux, if_pos h] at hp
      rcases List.mem_cons.mp hp with h1 | h1
      · subst h1; simpa using hcur
      · exact ih [] (by simp) piece h1
    · rw [splitCharAux, if_neg h] at hp
      refine ih (c :: cur) ?_ piece hp
      intro hm
      rcases List.mem_cons.mp hm with h1 | h1
      · exact h h1.symm
      · exact hcur h1

theorem splitChar_pieces_no_sep (sep : Char) (s f : String) (hf : f ∈ splitChar sep s) :
    sep ∉ f.data := by
  rcases List.mem_map.mp hf with ⟨piece, hp, he⟩
  subst he
  exact splitCharAux_pieces_no_sep sep s.data [] (by simp) piece hp

theorem getD_mem_or_eq {α : Type} (l : List α) (n : Nat) (d : α) :
    l.getD n d ∈ l ∨ l.getD n d = d := by
  induction l generalizing n with
  | nil => right; cases n <;> rfl
  | cons a l ih =>
    cases n with
    | zero => left; exact List.mem_cons_self a l
    | succ n =>
      rw [List.getD_cons_succ]
      rcases ih n with h | h
      · left; exact List.mem_cons_of_mem a h
      · right; exact h

theorem parseLine_fields_no_space (fn line : String) :
    ' ' ∉ (parseLine fn line).UrlOrPath.data ∧ ' ' ∉ (parseLine fn line).Version.data ∧
      ' ' ∉ (parseLine fn line).RelativePath.data := by
  have h0 : (parseLine fn line).UrlOrPath = (splitChar ' ' line).getD 0 "" := rfl
  have h1 : (parseLine fn line).Version = (splitChar ' ' line).getD 1 "" := rfl
  have h2 : (parseLine fn line).RelativePath = (splitChar ' ' line).getD 2 "/" := rfl
  refine ⟨?_, ?_, ?_⟩
  · rw [h0]
    rcases getD_mem_or_eq (splitChar ' ' line) 0 "" with h | h
    · exact splitChar_pieces_no_sep ' ' line _ h
    · rw [h]; decide
  · rw [h1]
    rcases getD_mem_or_eq (splitChar ' ' line) 1 "" with h | h
    · exact splitChar_pieces_no_sep ' ' line _ h
    · rw [h]; decide
  · rw [h2]
    rcases getD_mem_or_eq (splitChar ' ' line) 2 "/" with h | h
    · exact splitChar_pieces_no_sep ' ' line _ h
    · rw [h]; decide

theorem splitCharAux_append (sep : Char) (as bs : List Char) (h : sep ∉ as) :
    ∀ cur, splitCharAux sep (as ++ sep :: bs) cur = (cur.reverse ++ as) :: splitCharAux sep bs [] := by
  induction as with
  | nil => intro cur; simp [splitCharAux]
  | cons a as ih =>
    intro cur
    have ha : ¬ a = sep := fun he => h (he ▸ List.mem_cons_self a as)
    rw [List.cons_append, splitCharAux, if_neg ha,
      ih (fun hm => h (List.mem_cons_of_mem a hm)) (a :: cur)]
    simp

theorem splitCharAux_no_sep (sep : Char) (as : List Char) (h : sep ∉ as) :
    ∀ cur, splitCharAux sep as cur = [cur.reverse ++ as] := by
  induction as with
  | nil => intro cur; simp [splitCharAux]
  | cons a as ih =>
    intro cur
    have ha : ¬ a = sep := fun he => h (he ▸ List.mem_cons_self a as)
    rw [splitCharAux, if_neg ha, ih (fun hm => h (List.mem_cons_of_mem a hm)) (a :: cur)]
    simp

theorem strData_append (a b : String) : (a ++ b).data = a.data ++ b.data := by
  cases a; cases b; rfl

theorem strMk_data (s : String) : String.mk s.data = s := rfl

theorem splitChar_space_two (u v : String) (hu : ' ' ∉ u.data) (hv : ' ' ∉ v.data) :
    splitChar ' ' (u ++ " " ++ v) = [u, v] := by
  have hd : (u ++ " " ++ v).data = u.data ++ ' ' :: v.data := by
    rw [strData_append, strData_append]
    simp
  rw [splitChar, hd, splitCharAux_append ' ' u.data v.data hu [],
    splitCharAux_no_sep ' ' v.data hv []]
  simp [strMk_data]

theorem splitChar_space_three (u v w : String)
    (hu : ' ' ∉ u.data) (hv : ' ' ∉ v.data) (hw : ' ' ∉ w.data) :
    splitChar ' ' (u ++ " " ++ v ++ " " ++ w) = [u, v, w] := by
  have hd : (u ++ " " ++ v ++ " " ++ w).data = u.data ++ ' ' :: (v.data ++ ' ' :: w.data) := by
    rw [strData_append, strData_append, strData_append, strData_append]
    simp
  rw [splitChar, hd, splitCharAux_append ' ' u.data (v.data ++ ' ' :: w.data) hu [],
    splitCharAux_append ' ' v.data w.data hv [],
    splitCharAux_no_sep ' ' w.data hw []]
  simp [strMk_data]

theorem parseLine_writeLine_mk (fn2 cf u v r : String) (md : Bool)
    (hu : ' ' ∉ u.data) (hv : ' ' ∉ v.data) (hr : ' ' ∉ r.data) :
    parseLine fn2 (writeLine
        { Configuration := cf, UrlOrPath := u, Version := v, RelativePath := r,
          Name := deriveName u r (parseRequestURI u).toOption, Modified := md,
          URL := (parseRequestURI u).toOption }) =
      { Configuration := fn2, UrlOrPath := u,
        Version := if v = "" then "*" else v, RelativePath := r,
        Name := deriveName u r (parseRequestURI u).toOption, Modified := false,
        URL := (parseRequestURI u).toOption } := by
  have hv' : ' ' ∉ (if v = "" then "*" else v).data := by
    by_cases h : v = ""
    · rw [if_pos h]; decide
    · rw [if_neg h]; exact hv
  by_cases hrr : r = "/"
  · subst hrr
    have hw : writeLine
        { Configuration := cf, UrlOrPath := u, Version := v, RelativePath := "/",
          Name := deriveName u "/" (parseRequestURI u).toOption, Modified := md,
          URL := (parseRequestURI u).toOption } = u ++ " " ++ (if v = "" then "*" else v) := by
      simp [writeLine]
    rw [hw]
    have hfields := splitChar_space_two u (if v = "" then "*" else v) hu hv'
    simp [parseLine, hfields, List.getD_cons_zero, List.getD_cons_succ]
  · have hw : writeLine
        { Configuration := cf, UrlOrPath := u, Version := v, RelativePath := r,
          Name := deriveName u r (parseRequestURI u).toOption, Modified := md,
          URL := (parseRequestURI u).toOption }
        = u ++ " " ++ (if v = "" then "*" else v) ++ " " ++ r := by
      simp [writeLine, hrr]
    rw [hw]
    have hfields := splitChar_space_three u (if v = "" then "*" else v) r hu hv' hr
    simp [parseLine, hfields, List.getD_cons_zero, List.getD_cons_succ]

theorem parseLine_writeLine (fn fn2 line : String) :
    parseLine fn2 (writeLine (parseLine fn line)) = normalizeEntry fn2 (parseLine fn line) := by
  obtain ⟨hu, hv, hr⟩ := parseLine_fields_no_space fn line
  exact parseLine_writeLine_mk fn2 fn _ _ _ false hu hv hr

theorem readLines_ok_entries (fn : String) (lines : List String) (acc out : Dependencies)
    (vbp : String → String) (h : readLines fn lines acc vbp = .ok out) :
    out = acc ++ lines.map (parseLine fn) := by
  induction lines generalizing acc vbp with
  | nil =>
    simp only [readLines, Except.ok.injEq] at h
    subst h
    simp
  | cons line rest ih =>
    simp only [readLines] at h
    by_cases hc : ¬ vbp (parseLine fn line).UrlOrPath = "" ∧
        ¬ vbp (parseLine fn line).UrlOrPath = (parseLine fn line).Version
    · rw [if_pos hc] at h
      simp at h
    · rw [if_neg hc] at h
      rw [ih _ _ h]
      simp

theorem mem_configKeys_aux (x : String) (d : Dependencies) :
    ∀ ks : List String,
      (x ∈ d.foldl (fun ks l => if l.Configuration ∈ ks then ks else ks ++ [l.Configuration]) ks
        ↔ x ∈ ks ∨ ∃ l ∈ d, l.Configuration = x) := by
  induction d with
  | nil => intro ks; simp
  | cons a d ih =>
    intro ks
    rw [List.foldl_cons]
    by_cases h : a.Configuration ∈ ks
    · rw [if_pos h, ih]
      simp only [List.mem_cons]
      constructor
      · rintro (hx | ⟨l, hl, he⟩)
        · exact Or.inl hx
        · exact Or.inr ⟨l, Or.inr hl, he⟩
      · rintro (hx | ⟨l, (rfl | hl), he⟩)
        · exact Or.inl hx
        · exact Or.inl (he ▸ h)
        · exact Or.inr ⟨l, hl, he⟩
    · rw [if_neg h, ih]
      simp only [List.mem_append, List.mem_singleton, List.mem_cons]
      constructor
      · rintro ((hx | hx | hx) | ⟨l, hl, he⟩)
        · exact Or.inl hx
        · exact Or.inr ⟨a, Or.inl rfl, hx.symm⟩
        · exact absurd hx (List.not_mem_nil x)
        · exact Or.inr ⟨l, Or.inr hl, he⟩
      · rintro (hx | ⟨l, (rfl | hl), he⟩)
        · exact Or.inl (Or.inl hx)
        · exact Or.inl (Or.inr (Or.inl he.symm))
        · exact Or.inr ⟨l, hl, he⟩

theorem mem_configKeys (x : String) (d : Dependencies) :
    x ∈ configKeys d ↔ ∃ l ∈ d, l.Configuration = x := by
  rw [configKeys, mem_configKeys_aux]
  simp

/- ===================== claim theorems ===================== -/

/-- Claim C3, counterexample: for the manifest line /local/b the parsed entry
has a present parsedURL (url.ParseRequestURI accepts rooted paths), where the
claim asserts parsedURL is absent for absolute filesystem paths. -/
theorem c3_cex_rooted_path_url_present :
    (parseLine "f" "/local/b").URL.isSome = true := by rfl

/-- Claim C3, amended: parsedURL is exactly the Option result of
url.ParseRequestURI on the first field, which accepts absolute URLs and
rooted absolute paths (so /local/b gets a present parsedURL) and rejects
relative paths and the empty string (absent parsedURL, local-path
semantics). -/
theorem c3_parsedURL_iff_requestURI :
    (∀ fn line : String,
      (parseLine fn line).URL = (parseRequestURI ((splitChar ' ' line).getD 0 "")).toOption)
    ∧ (parseLine "f" "https://x/a.git 1.0").URL.isSome = true
    ∧ (parseLine "f" "/local/b 1.0").URL.isSome = true
    ∧ (parseLine "f" "local/b 1.0").URL.isSome = false
    ∧ (parseLine "f" "../b 1.0").URL.isSome = false
    ∧ (parseLine "f" "").URL.isSome = false :=
  ⟨fun _ _ => rfl, rfl, rfl, rfl, rfl, rfl⟩

/-- Claim C4, counterexample: a pinned entry followed by an unpinned entry
for the same source aborts parsing fatally, although the claim states that a
pair with at least one empty version succeeds. -/
theorem c4_cex_pin_then_unpinned_fatal :
    (Dependencies.Read [] "f" ["src 1.0", "src"]).toOption.isSome = false := by rfl

/-- Claim C4, amended: parsing one manifest succeeds exactly when, for every
source, each entry's version is empty or equal to the version of the next
entry for that source (the tracker stores only the most recent version, and
an empty stored version never conflicts).  Equal versions and an unpinned
entry followed by a pinned one succeed; a pinned entry followed by a
different or empty version fails fatally. -/
theorem c4_conflict_iff_chain (fn : String) (lines : List String) :
    (Dependencies.Read [] fn lines).toOption.isSome = true ↔
      ∀ s, List.Chain' (fun a b => a = "" ∨ a = b)
        (versionsOf s (lines.map (parseLine fn))) := by
  rw [Dependencies.Read, readLines_ok_iff]
  refine forall_congr' (fun s => ?_)
  cases versionsOf s (lines.map (parseLine fn)) with
  | nil => simp [chainFrom, List.Chain']
  | cons v ws => simp [chainFrom, List.Chain', chainFrom_iff_chain]

/-- Claim C5, counterexample: the same source read from two manifest files in
one run with differing non-empty pins (1.0 then 2.0) is accepted, although
the claim states cross-file conflicts are detected fatally. -/
theorem c5_cex_cross_file_conflict_undetected :
    ((Dependencies.Read [] "f1" ["src 1.0"]).toOption.bind
      (fun d => (Dependencies.Read d "f2" ["src 2.0"]).toOption)).isSome = true := by rfl

/-- Claim C5, amended: the versionsByPath conflict map is created afresh on
every Read invocation, so conflict detection depends only on the lines of the
manifest being read and not on entries accumulated from previously read
files; cross-file conflicts in one run are therefore not detected. -/
theorem c5_conflict_scope_per_read (d : Dependencies) (fn : String) (lines : List String) :
    (Dependencies.Read d fn lines).toOption.isSome
      = (Dependencies.Read [] fn lines).toOption.isSome :=
  readLines_isSome_acc_irrelevant fn lines d [] _

/-- Claim C7, counterexample: for sourceRef https://example.com/libs/foo.git
with mount path /sub the derived name is not "foosub". -/
theorem c7_cex_name_not_foosub :
    ¬ (parseLine "f" "https://example.com/libs/foo.git 1.0 /sub").Name = "foosub" := by
  decide

/-- Claim C7, amended: the derived name for
https://example.com/libs/foo.git with mount path / is "foo"; with mount path
/sub it is "foo_sub" — every slash of the mount path, including the leading
one, is replaced by an underscore and the result is appended. -/
theorem c7_derived_name_underscore :
    (parseLine "f" "https://example.com/libs/foo.git 1.0").Name = "foo"
    ∧ (parseLine "f" "https://example.com/libs/foo.git 1.0 /sub").Name = "foo_sub" :=
  ⟨rfl, rfl⟩

/-- Claim C8, counterexample: an empty input line contributes one Library
entry, although the claim states blank lines contribute none. -/
theorem c8_cex_blank_line_contributes :
    (Dependencies.Read [] "f" [""]).toOption.map List.length = some 1 := by rfl

/-- Claim C8, amended: blank lines are not skipped: an empty input line
yields a Library entry with empty sourceRef, empty version, mount path "/",
name "." and absent parsedURL. -/
theorem c8_blank_line_entry :
    Dependencies.Read [] "f" [""] = .ok
      [{ Configuration := "f", UrlOrPath := "", Version := "", RelativePath := "/",
         Name := ".", Modified := false, URL := none }] := by rfl

/-- Claim C10: lines are split on single ASCII spaces only — two consecutive
spaces yield an empty version field (the token after them lands in the mount
path field), and a tab is no delimiter but stays inside the adjacent token. -/
theorem c10_split_single_spaces :
    (parseLine "f" "src  1.0").Version = "" ∧ (parseLine "f" "src  1.0").RelativePath = "1.0"
    ∧ (parseLine "f" "a\tb 1.0").UrlOrPath = "a\tb"
    ∧ (parseLine "f" "a\tb 1.0").Version = "1.0" :=
  ⟨rfl, rfl, rfl, rfl⟩

/-- Claim C6, counterexample: for the well-formed manifest whose lines are
"https://x/a.git" and "https://x/a.git 1.0" the first parse succeeds, but
parsing its serialized output fails fatally (the "*" normalization of the
first entry now conflicts with the 1.0 pin), so Parse→Serialize→Parse does
not yield field-equal entries for every well-formed manifest. -/
theorem c6_cex_roundtrip_fatal :
    (Dependencies.Read [] "f" ["https://x/a.git", "https://x/a.git 1.0"]).toOption.isSome = true
    ∧ ((Dependencies.Read [] "f" ["https://x/a.git", "https://x/a.git 1.0"]).toOption.map
        (fun d => (Dependencies.Read [] "f" (writeLines d)).toOption.isSome)) = some false := by
  exact ⟨rfl, rfl⟩

/-- Claim C6, amended: whenever the serialized output of a successful parse
itself parses successfully, the second parse yields exactly the first parse's
entries normalized: originating file replaced, empty versions replaced by
"*", all other fields (source, relative path, derived name, parsed URL)
unchanged.  The second parse can fail when a source occurs unpinned before a
pinned occurrence. -/
theorem c6_parse_serialize_parse (fn fn2 : String) (lines : List String) (d d2 : Dependencies)
    (h1 : Dependencies.Read [] fn lines = .ok d)
    (h2 : Dependencies.Read [] fn2 (writeLines d) = .ok d2) :
    d2 = d.map (normalizeEntry fn2) := by
  have hd : d = lines.map (parseLine fn) := by
    simpa using readLines_ok_entries fn lines [] d _ h1
  have hd2 : d2 = (writeLines d).map (parseLine fn2) := by
    simpa using readLines_ok_entries fn2 (writeLines d) [] d2 _ h2
  rw [hd2, writeLines, List.map_map, hd, List.map_map, List.map_map]
  apply List.map_congr_left
  intro line _
  exact parseLine_writeLine fn fn2 line

/-- Witness: the round-trip theorem applied to the concrete manifest
["https://x/a.git 1.0"], whose hypotheses hold by computation. -/
theorem c6_parse_serialize_parse_witness :
    (Dependencies.Read [] "g" (writeLines c6L0)).toOption = some (c6L0.map (normalizeEntry "g")) := by
  have h1 : Dependencies.Read [] "f" ["https://x/a.git 1.0"] = .ok c6L0 := by rfl
  have h2 : Dependencies.Read [] "g" (writeLines c6L0) =
      .ok ((Dependencies.Read [] "g" (writeLines c6L0)).toOption.getD []) := by rfl
  have h3 := c6_parse_serialize_parse "f" "g" ["https://x/a.git 1.0"] c6L0
    ((Dependencies.Read [] "g" (writeLines c6L0)).toOption.getD []) h1 h2
  rw [h2, h3]
  rfl

/-- Claim C9: SaveModified rewrites a manifest file exactly when it appears
as some entry's originating file and either force is set or some entry of
that file's group has the Modified flag; with force every present file is
rewritten, without force files whose groups have no modified entry are left
untouched. -/
theorem c9_saveModified_writes_iff (d : Dependencies) (force : Bool) (c : String) :
    (∃ content, (c, content) ∈ saveModified d force) ↔
      ((∃ l ∈ d, l.Configuration = c) ∧
        (force = true ∨ ∃ l ∈ d, l.Configuration = c ∧ l.Modified = true)) := by
  constructor
  · rintro ⟨content, hmem⟩
    rw [saveModified] at hmem
    rcases List.mem_filterMap.mp hmem with ⟨k, hk, hf⟩
    by_cases hcond : (force || (d.filter (fun l => l.Configuration = k)).any (fun l => l.Modified)) = true
    · rw [if_pos hcond] at hf
      have h2 := Option.some.inj hf
      have hkc : k = c := congrArg Prod.fst h2
      subst hkc
      refine ⟨(mem_configKeys k d).mp hk, ?_⟩
      simp only [Bool.or_eq_true] at hcond
      rcases hcond with hforce | hany
      · exact Or.inl hforce
      · right
        rcases List.any_eq_true.mp hany with ⟨l, hlf, hm⟩
        rcases List.mem_filter.mp hlf with ⟨hld, hcfg⟩
        exact ⟨l, hld, of_decide_eq_true hcfg, hm⟩
    · rw [if_neg hcond] at hf
      simp at hf
  · rintro ⟨⟨l0, hl0, hc0⟩, hbr⟩
    refine ⟨writeLines (d.filter (fun l => l.Configuration = c)), ?_⟩
    rw [saveModified]
    apply List.mem_filterMap.mpr
    refine ⟨c, (mem_configKeys c d).mpr ⟨l0, hl0, hc0⟩, ?_⟩
    have hcond : (force || (d.filter (fun l => l.Configuration = c)).any (fun l => l.Modified)) = true := by
      simp only [Bool.or_eq_true]
      rcases hbr with hforce | ⟨l, hl, hcfg, hm⟩
      · exact Or.inl hforce
      · right
        apply List.any_eq_true.mpr
        exact ⟨l, List.mem_filter.mpr ⟨hl, decide_eq_true hcfg⟩, hm⟩
    rw [if_pos hcond]

/-- Claim C1: the code cannot resolve the manifest entry /local/b to its
existing directory.  ParseRequestURI accepts the rooted path, so Refresh
takes the Clone branch (failing Clone aborts the run); and even for a
genuinely local-path entry (relative local/b, existing directory) the
local branch never assigns dependencyPath, so Refresh returns the
"Unable to find dependency" error instead of the claimed ResolvedDependency. -/
theorem c1_local_path_entry_unresolved :
    Dependencies.Refresh [parseLine "m" "/local/b"] fsLocalDirs "deps" reposCloneFails false false
      = .error (.cloneError "clone failed")
    ∧ Dependencies.Refresh [parseLine "m" "local/b"] fsLocalDirs "deps" reposCloneFails false false
      = .error (.dependencyNotFound (parseLine "m" "local/b")) :=
  ⟨rfl, rfl⟩

/-- Claim C2: the "Unable to find dependency" error is raised for a
local-path source whose path exists and is a directory (local/c), where the
claim says DependencyNotFound occurs only when the path does not exist or is
not a directory. -/
theorem c2_notfound_despite_existing_dir :
    Dependencies.Refresh [parseLine "m" "local/c"] fsLocalDirs "deps" reposCloneFails false false
      = .error (.dependencyNotFound (parseLine "m" "local/c")) := by rfl

end SimpleDeps
